import Mathlib

/-!
Verification of the agentic-engine core of sheikh-cli
(`src/core/agentic-engine.js`) against its natural-language
specification.  The JavaScript methods are shallowly embedded as Lean
functions: strings are `String`, JS regex scans are modelled by explicit
left-to-right scanners with the same leftmost, non-overlapping, greedy
semantics, numeric scores use `ℚ` (exact arithmetic) and the
`Math.log`-based complexity uses `ℝ`.
-/

namespace SheikhCli

/-! ### Character and string primitives mirroring the JS string API -/

/-- The single-quote character (written via its code point). -/
def quoteS : Char := Char.ofNat 39

/-- The double-quote character. -/
def quoteD : Char := Char.ofNat 34

/-- Does the first list start with the second one?  (Model of a JS regex
matching a literal at the current position.) -/
def startsWithL : List Char → List Char → Bool
  | _, [] => true
  | [], _ :: _ => false
  | c :: cs, d :: ds => c = d && startsWithL cs ds

/-- Is `needle` a contiguous sublist of `hay`?  Model of
`String.prototype.includes`. -/
def containsL : List Char → List Char → Bool
  | [], needle => startsWithL [] needle
  | c :: cs, needle => startsWithL (c :: cs) needle || containsL cs needle

/-- Model of `s.includes(sub)`. -/
def includes (s sub : String) : Bool := containsL s.data sub.data

/-- Model of `s.toLowerCase()` (ASCII, which is all the source uses). -/
def lowerStr (s : String) : String := String.mk (s.data.map Char.toLower)

/-- Model of `s.toUpperCase()`. -/
def upperStr (s : String) : String := String.mk (s.data.map Char.toUpper)

/-- Model of `s.split(sep)` for a single-character separator: always
returns at least one (possibly empty) group. -/
def splitChar (sep : Char) : List Char → List (List Char)
  | [] => [[]]
  | c :: cs =>
    if c = sep then [] :: splitChar sep cs
    else
      match splitChar sep cs with
      | [] => [[c]]
      | g :: gs => (c :: g) :: gs

/-- Characters matched by the JS regex class `\s` (the ones that can
occur in source text). -/
def isSpace (c : Char) : Bool :=
  c = ' ' || c = Char.ofNat 9 || c = Char.ofNat 10 || c = Char.ofNat 13 ||
  c = Char.ofNat 11 || c = Char.ofNat 12

/-- Characters matched by the JS regex class `\w`. -/
def isWordChar (c : Char) : Bool := c.isAlphanum || c = '_'

/-- Is `c` one of the two quote characters (`['"]` in the regexes)? -/
def isQuote (c : Char) : Bool := c = quoteS || c = quoteD

/-- Length of the maximal leading run of characters satisfying `p`
(the rest of the list is `l.drop (takeWhileCount p l)`). -/
def takeWhileCount (p : Char → Bool) : List Char → Nat
  | [] => 0
  | c :: cs => if p c then takeWhileCount p cs + 1 else 0

/-- Fuel-driven worker for `scanCount` (structural recursion on the
fuel so that the kernel can evaluate it; `fuel = l.length` always
suffices because every step consumes at least one character). -/
def scanCountF (tok : List Char → Option Nat) : Nat → List Char → Nat
  | 0, _ => 0
  | _, [] => 0
  | fuel + 1, c :: cs =>
    match tok (c :: cs) with
    | some n => 1 + scanCountF tok fuel (cs.drop (n - 1))
    | none => scanCountF tok fuel cs

/-- Generic model of a global regex scan that only counts matches:
`tok l` returns the length of a match starting at the head of `l`, if
any.  On a match the scan resumes after the match (matches are
leftmost and non-overlapping), otherwise it advances one character. -/
def scanCount (tok : List Char → Option Nat) (l : List Char) : Nat :=
  scanCountF tok l.length l

/-- Fuel-driven worker for `scanCaps`. -/
def scanCapsF (tok : List Char → Option (Nat × List Char)) :
    Nat → List Char → List (List Char)
  | 0, _ => []
  | _, [] => []
  | fuel + 1, c :: cs =>
    match tok (c :: cs) with
    | some (n, cap) => cap :: scanCapsF tok fuel (cs.drop (n - 1))
    | none => scanCapsF tok fuel cs

/-- Generic model of a global regex scan collecting one capture group
per match: `tok l` returns (length of the whole match, capture). -/
def scanCaps (tok : List Char → Option (Nat × List Char)) (l : List Char) :
    List (List Char) :=
  scanCapsF tok l.length l

/-! ### The structural-keyword regex `function|class|const.*=` -/

/-- Position (from the head) of the last `=` before the first newline,
if any: the greedy `const.*=` alternative extends to the last `=` on
the current line (`.` does not match a newline). -/
def lastEqIdx : List Char → Option Nat
  | [] => none
  | c :: cs =>
    if c = Char.ofNat 10 then none
    else
      match lastEqIdx cs with
      | some k => some (k + 1)
      | none => if c = '=' then some 0 else none

/-- Match of `function|class|const.*=` anchored at the head of `l`
(alternatives tried in source order), returning the match length. -/
def structTokenAt (l : List Char) : Option Nat :=
  if startsWithL l "function".data then some 8
  else if startsWithL l "class".data then some 5
  else if startsWithL l "const".data then
    match lastEqIdx (l.drop 5) with
    | some k => some (5 + k + 1)
    | none => none
  else none

/-- `content.split('\n').length` of `calculateComplexity`. -/
def linesOf (content : String) : Nat := (splitChar (Char.ofNat 10) content.data).length

/-- `(content.match(/function|class|const.*=/g) || []).length`. -/
def keywordCount (content : String) : Nat := scanCount structTokenAt content.data

/-- The argument `lines + functions + 1` of `Math.log` in
`calculateComplexity`. -/
def complexityArg (content : String) : Nat := linesOf content + keywordCount content + 1

/-- `CodebaseAnalyzer.calculateComplexity`:
`Math.round(Math.log(lines + functions + 1) * 100) / 100`. -/
noncomputable def calculateComplexity (content : String) : ℝ :=
  (round (Real.log (complexityArg content) * 100) : ℝ) / 100

/-! ### The dependency-extraction regexes -/

/-- Match of `['"]([^'"]+)['"]` anchored at the head: opening quote, a
greedy non-empty run of non-quote characters, then a closing quote.
Returns (consumed length including quotes, capture). -/
def matchQuoted (l : List Char) : Option (Nat × List Char) :=
  match l with
  | [] => none
  | c :: cs =>
    if isQuote c then
      let n := takeWhileCount (fun d => !(isQuote d)) cs
      if n = 0 then none
      else
        match cs.drop n with
        | d :: _ => if isQuote d then some (n + 2, cs.take n) else none
        | [] => none
    else none

/-- Match of `(?:import|require|from)\s+['"]([^'"]+)['"]` anchored at
the head of `l`. -/
def depTokenAt1 (l : List Char) : Option (Nat × List Char) :=
  let kw : Option Nat :=
    if startsWithL l "import".data then some 6
    else if startsWithL l "require".data then some 7
    else if startsWithL l "from".data then some 4
    else none
  match kw with
  | none => none
  | some k =>
    let rest := l.drop k
    let s := takeWhileCount isSpace rest
    if s = 0 then none
    else
      match matchQuoted (rest.drop s) with
      | some (m, cap) => some (k + s + m, cap)
      | none => none

/-- Match of `require\s*\(\s*['"]([^'"]+)['"]\s*\)` anchored at the
head of `l`. -/
def depTokenAt2 (l : List Char) : Option (Nat × List Char) :=
  if startsWithL l "require".data then
    let rest := l.drop 7
    let s1 := takeWhileCount isSpace rest
    match rest.drop s1 with
    | c :: cs =>
      if c = '(' then
        let s2 := takeWhileCount isSpace cs
        match matchQuoted (cs.drop s2) with
        | some (m, cap) =>
          let r3 := (cs.drop s2).drop m
          let s3 := takeWhileCount isSpace r3
          match r3.drop s3 with
          | d :: _ => if d = ')' then some (7 + s1 + 1 + s2 + m + s3 + 1, cap) else none
          | [] => none
        | none => none
      else none
    | [] => none
  else none

/-- `CodebaseAnalyzer.extractDependencies`: all captures of the
import/require/from regex pass, then all captures of the `require(...)`
regex pass, concatenated in scan order. -/
def extractDependencies (content : String) : List String :=
  (scanCaps depTokenAt1 content.data).map (fun l => String.mk l) ++
  (scanCaps depTokenAt2 content.data).map (fun l => String.mk l)

/-! ### Pattern counts, key terms, purpose, context -/

/-- Match of `function\s+\w+` anchored at the head. -/
def funcDeclAt (l : List Char) : Option Nat :=
  if startsWithL l "function".data then
    let s := takeWhileCount isSpace (l.drop 8)
    if s = 0 then none
    else
      let w := takeWhileCount isWordChar ((l.drop 8).drop s)
      if w = 0 then none else some (8 + s + w)
  else none

/-- Match of `class\s+\w+` anchored at the head. -/
def classDeclAt (l : List Char) : Option Nat :=
  if startsWithL l "class".data then
    let s := takeWhileCount isSpace (l.drop 5)
    if s = 0 then none
    else
      let w := takeWhileCount isWordChar ((l.drop 5).drop s)
      if w = 0 then none else some (5 + s + w)
  else none

/-- Match of `async\s+` anchored at the head. -/
def asyncAt (l : List Char) : Option Nat :=
  if startsWithL l "async".data then
    let s := takeWhileCount isSpace (l.drop 5)
    if s = 0 then none else some (5 + s)
  else none

/-- Match of `Promise|await` anchored at the head. -/
def promiseAt (l : List Char) : Option Nat :=
  if startsWithL l "Promise".data then some 7
  else if startsWithL l "await".data then some 5
  else none

/-- The `patterns` object computed by
`CodebaseAnalyzer.extractPatterns(content)`. -/
structure PatternCounts where
  functions : Nat
  classes : Nat
  asyncCount : Nat
  promises : Nat
deriving DecidableEq

/-- `CodebaseAnalyzer.extractPatterns(content)` (the one-argument class
member, which shadows the earlier zero-argument one). -/
def extractPatterns (content : String) : PatternCounts :=
  { functions := scanCount funcDeclAt content.data
    classes := scanCount classDeclAt content.data
    asyncCount := scanCount asyncAt content.data
    promises := scanCount promiseAt content.data }

/-- Fuel-driven worker for `wordRuns`. -/
def wordRunsF : Nat → List Char → List (List Char)
  | 0, _ => []
  | _, [] => []
  | fuel + 1, c :: cs =>
    if isWordChar c then
      let n := takeWhileCount isWordChar cs
      (c :: cs.take n) :: wordRunsF fuel (cs.drop n)
    else wordRunsF fuel cs

/-- Maximal runs of `\w` characters, in order: the matches of
`/\b\w{4,}\b/g` are exactly the runs of length at least 4. -/
def wordRuns (l : List Char) : List (List Char) := wordRunsF l.length l

/-- Insertion-ordered frequency table (model of a JS object used as a
counter: `Object.entries` enumerates keys in first-insertion order). -/
def bumpCount : List (String × Nat) → String → List (String × Nat)
  | [], w => [(w, 1)]
  | (k, v) :: rest, w =>
    if k = w then (k, v + 1) :: rest else (k, v) :: bumpCount rest w

/-- `CodebaseAnalyzer.extractKeyTerms`: lower-case, take word tokens of
length ≥ 4, count frequencies, stable-sort descending by count, take
the top 10 words. -/
def extractKeyTerms (content : String) : List String :=
  let words := ((wordRuns (lowerStr content).data).filter
    (fun w => 4 ≤ w.length)).map (fun l => String.mk l)
  let freq := words.foldl bumpCount []
  ((List.insertionSort (fun x y : String × Nat => y.2 ≤ x.2) freq).take 10).map (·.1)

/-- `CodebaseAnalyzer.inferPurpose`: first-match-wins substring rules. -/
def inferPurpose (content : String) : String :=
  if includes content "test" || includes content "spec" then "testing"
  else if includes content "config" then "configuration"
  else if includes content "api" || includes content "endpoint" then "api"
  else if includes content "component" || includes content "render" then "ui"
  else "general"

/-- The `context` object of an analysis record. -/
structure Context where
  summary : String
  keyTerms : List String
  purpose : String
deriving DecidableEq

/-- `CodebaseAnalyzer.generateContext`. -/
def generateContext (content : String) : Context :=
  { summary := String.mk (content.data.take 200) ++ "..."
    keyTerms := extractKeyTerms content
    purpose := inferPurpose content }

/-! ### File type classification -/

/-- Position of the last `.` of the list, if any. -/
def lastDotIdx : List Char → Option Nat
  | [] => none
  | c :: cs =>
    match lastDotIdx cs with
    | some k => some (k + 1)
    | none => if c = '.' then some 0 else none

/-- Model of Node's `path.extname`: the suffix of the final path
segment from its last dot, empty for dotfiles and dotless names. -/
def extname (p : String) : String :=
  let base := (splitChar '/' p.data).getLastD []
  match lastDotIdx base with
  | some k => if k = 0 then "" else String.mk (base.drop k)
  | none => ""

/-- The `typeMap` of `CodebaseAnalyzer.getFileType`. -/
def typeMap : List (String × String) :=
  [(".js", "javascript"), (".ts", "typescript"), (".py", "python"),
   (".java", "java"), (".go", "go"), (".rs", "rust"), (".md", "markdown"),
   (".json", "json"), (".yaml", "yaml"), (".yml", "yaml")]

/-- `CodebaseAnalyzer.getFileType`. -/
def getFileType (p : String) : String := (typeMap.lookup (extname p)).getD "unknown"

/-! ### File analysis records and the index -/

/-- A `FileAnalysisRecord` as produced by `CodebaseAnalyzer.analyzeFile`.
`lastModified` is the `new Date()` timestamp taken at analysis time,
modelled as an explicit clock input. -/
structure Analysis where
  path : String
  type : String
  size : Nat
  complexity : ℝ
  dependencies : List String
  patterns : PatternCounts
  context : Context
  lastModified : Nat

/-- `CodebaseAnalyzer.analyzeFile`, with the ambient clock passed in. -/
noncomputable def analyzeFile (now : Nat) (filePath content : String) : Analysis :=
  { path := filePath
    type := getFileType filePath
    size := content.length
    complexity := calculateComplexity content
    dependencies := extractDependencies content
    patterns := extractPatterns content
    context := generateContext content
    lastModified := now }

/-- `CodebaseAnalyzer.indexFiles` over an enumerated list of
(path, content) pairs; the insertion-ordered `Map` is a list. -/
noncomputable def buildIndex (now : Nat) (files : List (String × String)) : List Analysis :=
  files.map (fun f => analyzeFile now f.1 f.2)

/-! ### Relevance scoring and search -/

/-- `query.toLowerCase().split(' ')`. -/
def queryTermsOf (query : String) : List String :=
  (splitChar ' ' (lowerStr query).data).map (fun l => String.mk l)

/-- `queryTerms.some(term => analysis.path.toLowerCase().includes(term))`. -/
def pathMatch (qs : List String) (a : Analysis) : Bool :=
  qs.any (fun t => includes (lowerStr a.path) t)

/-- `queryTerms.filter(term => analysis.context.keyTerms.includes(term)).length`. -/
def termMatchCount (qs : List String) (a : Analysis) : Nat :=
  (qs.filter (fun t => a.context.keyTerms.contains t)).length

/-- `queryTerms.some(term => analysis.context.purpose.includes(term))`. -/
def purposeMatch (qs : List String) (a : Analysis) : Bool :=
  qs.any (fun t => includes a.context.purpose t)

/-- `queryTerms.filter(term => analysis.dependencies.some(dep => dep.includes(term))).length`. -/
def depMatchCount (qs : List String) (a : Analysis) : Nat :=
  (qs.filter (fun t => a.dependencies.any (fun d => includes d t))).length

/-- `CodebaseAnalyzer.calculateRelevance`, with exact rational
arithmetic for the weight sums. -/
def calculateRelevance (query : String) (a : Analysis) : ℚ :=
  min ((if pathMatch (queryTermsOf query) a then (3:ℚ)/10 else 0) +
       (termMatchCount (queryTermsOf query) a : ℚ) / ((queryTermsOf query).length : ℚ) * (2/5) +
       (if purposeMatch (queryTermsOf query) a then (1:ℚ)/5 else 0) +
       (depMatchCount (queryTermsOf query) a : ℚ) / ((queryTermsOf query).length : ℚ) * (1/10)) 1

/-- One element of the list returned by `agenticSearch`. -/
structure SearchResult where
  file : String
  relevance : ℚ
  context : Context
  dependencies : List String
deriving DecidableEq

instance : IsTotal SearchResult (fun x y => y.relevance ≤ x.relevance) :=
  ⟨fun a b => le_total b.relevance a.relevance⟩

instance : IsTrans SearchResult (fun x y => y.relevance ≤ x.relevance) :=
  ⟨fun _ _ _ h1 h2 => le_trans h2 h1⟩

/-- `CodebaseAnalyzer.agenticSearch`: keep records scoring strictly
above 0.7, sort descending by score (`Array.prototype.sort` with the
comparator `(a, b) => b.relevance - a.relevance` is a stable descending
sort, which insertion sort with this relation realises). -/
def agenticSearch (query : String) (index : List Analysis) : List SearchResult :=
  let results := (index.filter (fun a => (7:ℚ)/10 < calculateRelevance query a)).map
    (fun a => { file := a.path, relevance := calculateRelevance query a,
                context := a.context, dependencies := a.dependencies : SearchResult })
  List.insertionSort (fun x y => y.relevance ≤ x.relevance) results

/-! ### Report generation -/

/-- One value of `report.fileAnalysis`. -/
structure ReportEntry where
  type : String
  complexity : ℝ
  dependencies : Nat
  purpose : String
  keyTerms : List String

/-- `report.summary`. -/
structure ReportSummary where
  totalFiles : Nat
  fileTypes : List (String × Nat)
  totalLines : Nat
  averageComplexity : ℝ
  totalDependencies : Nat

/-- One entry of `report.recommendations`. -/
structure Recommendation where
  type : String
  message : String
  priority : String
deriving DecidableEq

/-- The full report record assembled by `generateReport` before
formatting. -/
structure Report where
  summary : ReportSummary
  fileAnalysis : List (String × ReportEntry)
  mostComplexFiles : List (String × ℝ)
  mostDependentFiles : List (String × Nat)
  recommendations : List Recommendation

/-- Insertion-ordered per-type counter (a JS object used as a map). -/
def bumpType : List (String × Nat) → String → List (String × Nat)
  | [], t => [(t, 1)]
  | (k, v) :: rest, t =>
    if k = t then (k, v + 1) :: rest else (k, v) :: bumpType rest t

/-- `report.summary.fileTypes`. -/
def fileTypesOf (index : List Analysis) : List (String × Nat) :=
  index.foldl (fun ft a => bumpType ft a.type) []

/-- `report.summary.totalLines` (the source adds `analysis.size`). -/
def totalLinesOf (index : List Analysis) : Nat := (index.map (·.size)).sum

/-- The running `totalComplexity` sum. -/
noncomputable def totalComplexityOf (index : List Analysis) : ℝ :=
  (index.map (·.complexity)).sum

/-- `report.summary.totalDependencies`. -/
def totalDependenciesOf (index : List Analysis) : Nat :=
  (index.map (fun a => a.dependencies.length)).sum

/-- `report.summary.averageComplexity`. -/
noncomputable def averageComplexityOf (index : List Analysis) : ℝ :=
  if 0 < index.length then totalComplexityOf index / index.length else 0

/-- `report.summary`. -/
noncomputable def summaryOf (index : List Analysis) : ReportSummary :=
  { totalFiles := index.length
    fileTypes := fileTypesOf index
    totalLines := totalLinesOf index
    averageComplexity := averageComplexityOf index
    totalDependencies := totalDependenciesOf index }

/-- `report.fileAnalysis`. -/
def fileAnalysisOf (index : List Analysis) : List (String × ReportEntry) :=
  index.map (fun a =>
    (a.path,
     { type := a.type, complexity := a.complexity,
       dependencies := a.dependencies.length, purpose := a.context.purpose,
       keyTerms := a.context.keyTerms : ReportEntry }))

/-- `report.patterns.mostComplexFiles`: stable descending sort by
complexity, top 5. -/
noncomputable def mostComplexOf (index : List Analysis) : List (String × ℝ) :=
  ((List.insertionSort (fun x y : Analysis => y.complexity ≤ x.complexity) index).take 5).map
    (fun a => (a.path, a.complexity))

/-- `report.patterns.mostDependentFiles`: stable descending sort by
dependency count, top 5. -/
def mostDependentOf (index : List Analysis) : List (String × Nat) :=
  ((List.insertionSort
      (fun x y : Analysis => y.dependencies.length ≤ x.dependencies.length) index).take 5).map
    (fun a => (a.path, a.dependencies.length))

/-- The fixed "no tests" recommendation object. -/
def testingRec : Recommendation :=
  { type := "testing"
    message := "No test files found. Consider adding comprehensive tests."
    priority := "high" }

open Classical in
/-- `CodebaseAnalyzer.generateRecommendations`.  Note the third check
reads `report.summary.fileTypes.test`, i.e. it looks the key "test" up
in the per-language tally. -/
noncomputable def generateRecommendations (summary : ReportSummary)
    (mostDependentFiles : List (String × Nat)) : List Recommendation :=
  (if 5 < summary.averageComplexity then
    [{ type := "complexity",
       message := "High average complexity detected. Consider refactoring complex files.",
       priority := "high" }]
   else []) ++
  (if (match mostDependentFiles.head? with
       | some p => 10 < p.2
       | none => False) then
    [{ type := "dependencies",
       message := "Some files have high dependency counts. Consider breaking them down.",
       priority := "medium" }]
   else []) ++
  (if (match summary.fileTypes.lookup "test" with
       | none => True
       | some v => v = 0) then [testingRec]
   else [])

/-- The report record of `CodebaseAnalyzer.generateReport`. -/
noncomputable def generateReportRecord (index : List Analysis) : Report :=
  { summary := summaryOf index
    fileAnalysis := fileAnalysisOf index
    mostComplexFiles := mostComplexOf index
    mostDependentFiles := mostDependentOf index
    recommendations := generateRecommendations (summaryOf index) (mostDependentOf index) }

/-- `CodebaseAnalyzer.formatReport`.  `fmt` renders the average
complexity (the JS `toFixed(2)`, a fixed deterministic function of the
number). -/
noncomputable def formatReport (fmt : ℝ → String) (r : Report) : String :=
  "# Codebase Analysis Report\n\n" ++
  "## Summary\n" ++
  "- Total Files: " ++ toString r.summary.totalFiles ++ "\n" ++
  "- Total Lines: " ++ toString r.summary.totalLines ++ "\n" ++
  "- Average Complexity: " ++ fmt r.summary.averageComplexity ++ "\n" ++
  "- Total Dependencies: " ++ toString r.summary.totalDependencies ++ "\n\n" ++
  "## File Types\n" ++
  String.join (r.summary.fileTypes.map
    (fun p => "- " ++ p.1 ++ ": " ++ toString p.2 ++ " files\n")) ++
  "\n" ++
  "## Recommendations\n" ++
  String.join (r.recommendations.map
    (fun rc => "- **" ++ upperStr rc.priority ++ "**: " ++ rc.message ++ "\n"))

/-- `CodebaseAnalyzer.generateReport` (returns the formatted text). -/
noncomputable def generateReport (fmt : ℝ → String) (index : List Analysis) : String :=
  formatReport fmt (generateReportRecord index)

/-! ### Task planning (`AgentCoordinator`) -/

/-- A plan step. -/
structure Step where
  id : String
  action : String
  agent : String
  critical : Bool
  estimatedTime : Nat
deriving DecidableEq

/-- The requirements object of `AgentCoordinator.analyzeRequirements`. -/
structure Requirements where
  fileOperations : List String
  codeAnalysis : List String
  testing : Bool
  gitOperations : List String
  dependencies : List String
deriving DecidableEq

/-- `AgentCoordinator.analyzeRequirements`: case-sensitive substring
checks on the task text, in source order. -/
def analyzeRequirements (task : String) : Requirements :=
  { fileOperations :=
      (if includes task "create" || includes task "add" then ["create"] else []) ++
      (if includes task "modify" || includes task "update" || includes task "change" then
        ["modify"] else []) ++
      (if includes task "delete" || includes task "remove" then ["delete"] else [])
    codeAnalysis := []
    testing := includes task "test" || includes task "spec"
    gitOperations :=
      if includes task "git" || includes task "commit" || includes task "push" then
        ["commit"] else []
    dependencies := [] }

/-- The fixed `create_files` step template. -/
def createStep : Step :=
  { id := "create_files", action := "Create necessary files",
    agent := "multi-file-editor", critical := true, estimatedTime := 30 }

/-- The fixed `modify_files` step template. -/
def modifyStep : Step :=
  { id := "modify_files", action := "Modify existing files",
    agent := "multi-file-editor", critical := true, estimatedTime := 45 }

/-- The fixed `run_tests` step template. -/
def testStep : Step :=
  { id := "run_tests", action := "Run test suite",
    agent := "test-coordinator", critical := false, estimatedTime := 60 }

/-- The fixed `git_commit` step template. -/
def commitStep : Step :=
  { id := "git_commit", action := "Commit changes",
    agent := "git-workflow", critical := false, estimatedTime := 15 }

/-- `AgentCoordinator.generateSteps`. -/
def generateSteps (r : Requirements) : List Step :=
  (if r.fileOperations.contains "create" then [createStep] else []) ++
  (if r.fileOperations.contains "modify" then [modifyStep] else []) ++
  (if r.testing then [testStep] else []) ++
  (if r.gitOperations.contains "commit" then [commitStep] else [])

/-- One dependency edge of a plan. -/
structure DepEdge where
  fromId : String
  toId : String
deriving DecidableEq

/-- `AgentCoordinator.calculateDependencies`: connect adjacent steps
with differing agents. -/
def calculateDependencies (steps : List Step) : List DepEdge :=
  (steps.zip steps.tail).filterMap
    (fun p => if p.1.agent ≠ p.2.agent then some ⟨p.1.id, p.2.id⟩ else none)

/-- `AgentCoordinator.estimateTime`. -/
def estimateTime (steps : List Step) : Nat :=
  steps.foldl (fun total s => total + s.estimatedTime) 0

/-- An `ExecutionPlan`. -/
structure ExecutionPlan where
  id : String
  task : String
  steps : List Step
  dependencies : List DepEdge
  estimatedTime : Nat
  risk : String
deriving DecidableEq

/-- `AgentCoordinator.assessRisk`. -/
def assessRisk (plan : ExecutionPlan) : String :=
  if plan.steps.any (fun s => s.agent = "security-auditor") then "high"
  else if 5 < plan.steps.length then "medium"
  else "low"

/-- `AgentCoordinator.createPlan`; the time-based `id` is an explicit
input. -/
def createPlan (id : String) (task : String) : ExecutionPlan :=
  let steps := generateSteps (analyzeRequirements task)
  let base : ExecutionPlan :=
    { id := id, task := task, steps := steps,
      dependencies := calculateDependencies steps,
      estimatedTime := estimateTime steps, risk := "low" }
  { base with risk := assessRisk base }

/-! ### Plan execution (`AgentCoordinator.executePlan`) -/

/-- A `ProposedChange` record (`{type, file, lines}`). -/
structure Change where
  file : String
  type : String
  lines : Option String
deriving DecidableEq

/-- A per-step result record. -/
structure StepResult where
  stepId : String
  action : String
  status : String
  startTime : Nat
  endTime : Option Nat
  output : Option String
  error : Option String
  changes : List Change
deriving DecidableEq

/-- The overall `results` record of `executePlan`.  `errors` holds the
values the JS code pushes (a step's `error` field may be `null`). -/
structure ExecutionResult where
  planId : String
  status : String
  steps : List StepResult
  errors : List (Option String)
  changes : List Change
deriving DecidableEq

/-- JS template-literal rendering of a possibly-null string. -/
def optStr (o : Option String) : String := o.getD "null"

/-- The loop body of `executePlan`.  On a step whose result has status
"error" the error is recorded; if the step is `critical` the thrown
`Critical step failed: ...` error is caught, recorded, and the loop
stops (skipping the step's `changes` push, which the throw preempts);
otherwise iteration continues. -/
def runSteps (exec : Step → StepResult) : List Step → ExecutionResult → ExecutionResult
  | [], acc => { acc with status := "completed" }
  | step :: rest, acc =>
    let sr := exec step
    let acc1 := { acc with steps := acc.steps ++ [sr] }
    if sr.status = "error" then
      let acc2 := { acc1 with errors := acc1.errors ++ [sr.error] }
      if step.critical then
        { acc2 with
          status := "failed"
          errors := acc2.errors ++ [some ("Critical step failed: " ++ optStr sr.error)] }
      else runSteps exec rest { acc2 with changes := acc2.changes ++ sr.changes }
    else runSteps exec rest { acc1 with changes := acc1.changes ++ sr.changes }

/-- `AgentCoordinator.executePlan`, parameterised by the per-step
executor (the source's `executeStep` simulation, or a failing stub when
a step is forced to fail). -/
def executePlan (exec : Step → StepResult) (plan : ExecutionPlan) : ExecutionResult :=
  runSteps exec plan.steps
    { planId := plan.id, status := "running", steps := [], errors := [], changes := [] }

/-! ### Change coordination (`AgentCoordinator.coordinateChanges`) -/

/-- Positional enumeration: JS object identity (`===`) of the distinct
change literals in a batch is their position in the array. -/
def enumFrom {α : Type} (n : Nat) : List α → List (Nat × α)
  | [] => []
  | a :: l => (n, a) :: enumFrom (n + 1) l

/-- `AgentCoordinator.detectConflicts`: every other (different object)
change on the identical file where both are of type "modify". -/
def detectConflicts (c : Nat × Change) (all : List (Nat × Change)) : List Change :=
  (all.filter (fun o =>
    o.1 != c.1 && c.2.file == o.2.file && c.2.type == "modify" && o.2.type == "modify")).map
    (·.2)

/-- Does a change's file name end in ".js"? -/
def endsJs (f : String) : Bool := startsWithL f.data.reverse ".js".data.reverse

/-- `AgentCoordinator.calculateChangeDependencies` over the accepted
changes. -/
def calculateChangeDependencies (changes : List Change) : List (Change × Change × String) :=
  let idx := enumFrom 0 changes
  (idx.map (fun c =>
    if c.2.type == "create" && endsJs c.2.file then
      (idx.filter (fun o => o.1 != c.1 && o.2.type == "modify")).map
        (fun o => (c.2, o.2, "import"))
    else [])).flatten

/-- The result record of `coordinateChanges`. -/
structure CoordinationResult where
  changes : List Change
  conflicts : List (Change × List Change)
  dependencies : List (Change × Change × String)
deriving DecidableEq

/-- The partition loop of `coordinateChanges`: a change with a
non-empty conflict list goes under `conflicts`, otherwise it is
accepted. -/
def coordLoop (idx : List (Nat × Change)) :
    List (Nat × Change) → List Change × List (Change × List Change)
  | [] => ([], [])
  | c :: rest =>
    let pr := coordLoop idx rest
    if (detectConflicts c idx).isEmpty then (c.2 :: pr.1, pr.2)
    else (pr.1, (c.2, detectConflicts c idx) :: pr.2)

/-- `AgentCoordinator.coordinateChanges`. -/
def coordinateChanges (changes : List Change) : CoordinationResult :=
  let idx := enumFrom 0 changes
  let pair := coordLoop idx idx
  { changes := pair.1, conflicts := pair.2,
    dependencies := calculateChangeDependencies pair.1 }

/-! ### Concrete fixtures used by witnesses and counterexamples -/

/-- The content `"const x = require('a'); import y from 'b';"` of the
dependency-extraction test (quotes written via code points). -/
def depTestContent : String :=
  "const x = require(\x27a\x27); import y from \x27b\x27;"

/-- Content where the appended `if (...)` block lowers the structural
keyword count: the greedy `const.*=` match swallows `function` once an
`==` appears later on the line. -/
def exA : String := "const x = function"

/-- `exA` with the block `if (a==b) {}` appended. -/
def exB : String := exA ++ "if (a==b) \x7b\x7d"

/-- A concrete analysis record scoring relevance 1 for query "test". -/
noncomputable def wAnalysis : Analysis :=
  { path := "test.js", type := "javascript", size := 0, complexity := 0,
    dependencies := ["testlib"], patterns := ⟨0, 0, 0, 0⟩,
    context := { summary := "", keyTerms := ["test"], purpose := "testing" },
    lastModified := 0 }

/-- The search result `agenticSearch "test" [wAnalysis]` produces. -/
def wResult : SearchResult :=
  { file := "test.js", relevance := 1,
    context := { summary := "", keyTerms := ["test"], purpose := "testing" },
    dependencies := ["testlib"] }

/-- A critical step used to exercise the failure path. -/
def failStep : Step :=
  { id := "s1", action := "do", agent := "multi-file-editor",
    critical := true, estimatedTime := 30 }

/-- The forced-failure result for `failStep`. -/
def failResult : StepResult :=
  { stepId := "s1", action := "do", status := "error", startTime := 0,
    endTime := some 0, output := none, error := some "boom", changes := [] }

/-- A step executor that fails every step. -/
def failExec : Step → StepResult := fun _ => failResult

/-- A one-step plan whose only step is critical. -/
def cplan : ExecutionPlan :=
  { id := "1", task := "t", steps := [failStep], dependencies := [],
    estimatedTime := 30, risk := "low" }

/-- The two-modify batch of the coordination test. -/
def twoBatch : List Change :=
  [{ file := "a.js", type := "modify", lines := none },
   { file := "a.js", type := "modify", lines := none }]

/-- The same analysis record with a different timestamp (used to state
that reports do not depend on the clock). -/
def stamp (t : Nat) (a : Analysis) : Analysis := { a with lastModified := t }

/-! ## Theorems -/

/-- `splitChar` always returns at least one group (as `String.split`
does in JS). -/
theorem splitChar_ne_nil (sep : Char) (l : List Char) : splitChar sep l ≠ [] := by
  cases l with
  | nil => simp [splitChar]
  | cons c cs =>
    unfold splitChar
    split
    · simp
    · cases h : splitChar sep cs <;> simp

/-- A query always splits into at least one term, so the divisions in
the scorer are by a positive count. -/
theorem queryTermsOf_length_pos (q : String) : 0 < (queryTermsOf q).length := by
  unfold queryTermsOf
  rw [List.length_map]
  cases h : splitChar ' ' (lowerStr q).data with
  | nil => exact absurd h (splitChar_ne_nil _ _)
  | cons a l => simp

/-- C9: for every query string and every file analysis record, the
relevance score lies in [0,1]: every contribution is non-negative and
the final value is clamped to at most 1. -/
theorem calculateRelevance_bounds (query : String) (a : Analysis) :
    0 ≤ calculateRelevance query a ∧ calculateRelevance query a ≤ 1 := by
  unfold calculateRelevance
  constructor
  · apply le_min _ zero_le_one
    have hn : (0:ℚ) ≤ ((queryTermsOf query).length : ℚ) := by positivity
    split_ifs <;> positivity
  · exact min_le_right _ _

/-- The concrete record `wAnalysis` scores exactly 1 for "test". -/
theorem relevance_test_wAnalysis : calculateRelevance "test" wAnalysis = 1 := by
  have hq : queryTermsOf "test" = ["test"] := by decide
  have hp : pathMatch ["test"] wAnalysis = true := by decide
  have ht : termMatchCount ["test"] wAnalysis = 1 := by decide
  have hu : purposeMatch ["test"] wAnalysis = true := by decide
  have hd : depMatchCount ["test"] wAnalysis = 1 := by decide
  unfold calculateRelevance
  rw [hq, hp, ht, hu, hd]
  norm_num

/-- Searching the one-record index for "test" returns that record. -/
theorem search_test_wAnalysis : agenticSearch "test" [wAnalysis] = [wResult] := by
  unfold agenticSearch
  have hfil : List.filter (fun a => decide ((7:ℚ)/10 < calculateRelevance "test" a))
      [wAnalysis] = [wAnalysis] := by
    rw [List.filter_cons]
    simp [relevance_test_wAnalysis]
    norm_num
  simp only [hfil, List.map]
  have hmap : ({ file := wAnalysis.path
                 relevance := calculateRelevance "test" wAnalysis
                 context := wAnalysis.context
                 dependencies := wAnalysis.dependencies } : SearchResult) = wResult := by
    rw [relevance_test_wAnalysis]
    rfl
  rw [hmap]
  simp [List.insertionSort, List.orderedInsert]

/-- C1: for every index and query, `agenticSearch` returns only
records with relevance strictly above 0.7 and the result is sorted
non-increasing by relevance. -/
theorem agenticSearch_filters_and_sorts (query : String) (index : List Analysis) :
    (∀ r ∈ agenticSearch query index, (7:ℚ)/10 < r.relevance) ∧
    (agenticSearch query index).Pairwise (fun x y => y.relevance ≤ x.relevance) := by
  constructor
  · intro r hr
    unfold agenticSearch at hr
    rw [List.mem_insertionSort] at hr
    obtain ⟨a, ha, rfl⟩ := List.mem_map.mp hr
    rw [List.mem_filter] at ha
    simpa using ha.2
  · exact List.sorted_insertionSort _ _

/-- Witness for C1 at a concrete query and one-record index. -/
theorem agenticSearch_filters_and_sorts_witness :
    (7:ℚ)/10 < wResult.relevance ∧
    (agenticSearch "test" [wAnalysis]).Pairwise (fun x y => y.relevance ≤ x.relevance) :=
  ⟨(agenticSearch_filters_and_sorts "test" [wAnalysis]).1 wResult
      (by rw [search_test_wAnalysis]; exact List.mem_singleton_self _),
   (agenticSearch_filters_and_sorts "test" [wAnalysis]).2⟩

/-- C3 counterexample: `createPlan "Create a new module"` does NOT
contain exactly one critical multi-file-editor step (the keyword match
is case-sensitive, so capitalised "Create" matches nothing and the
step list is empty). -/
theorem createPlan_capitalized_counterexample :
    ¬ (((createPlan "0" "Create a new module").steps.filter
        (fun s => s.agent == "multi-file-editor" && s.critical)).length = 1) := by
  decide

/-- C3 (amended): requirement extraction is case-sensitive, so the
capitalised task yields no steps, while the lower-cased task text
yields exactly one critical multi-file-editor step. -/
theorem createPlan_case_sensitive :
    (createPlan "0" "Create a new module").steps = [] ∧
    ((createPlan "0" "create a new module").steps.filter
        (fun s => s.agent == "multi-file-editor" && s.critical)).length = 1 := by
  decide

/-- C4 counterexample: on the spec's example content, "a" does not
precede "b" in the extracted dependency list. -/
theorem extractDependencies_order_counterexample :
    ¬ ((extractDependencies depTestContent).indexOf "a" <
       (extractDependencies depTestContent).indexOf "b") := by
  decide

/-- C4 (amended): both "a" and "b" are extracted, but the import/from
pass scans first, so "b" precedes "a". -/
theorem extractDependencies_scan_order :
    extractDependencies depTestContent = ["b", "a"] := by
  decide

/-- Generated steps only ever reference the three fixed agents, never
the security auditor. -/
theorem generateSteps_agent_ne_auditor (r : Requirements) (s : Step)
    (hs : s ∈ generateSteps r) : ¬ s.agent = "security-auditor" := by
  unfold generateSteps at hs
  rcases List.mem_append.mp hs with h | h
  · rcases List.mem_append.mp h with h | h
    · rcases List.mem_append.mp h with h | h
      · split at h
        · rw [List.mem_singleton.mp h]; decide
        · exact absurd h (List.not_mem_nil s)
      · split at h
        · rw [List.mem_singleton.mp h]; decide
        · exact absurd h (List.not_mem_nil s)
    · split at h
      · rw [List.mem_singleton.mp h]; decide
      · exact absurd h (List.not_mem_nil s)
  · split at h
    · rw [List.mem_singleton.mp h]; decide
    · exact absurd h (List.not_mem_nil s)

/-- Step generation emits at most four steps. -/
theorem generateSteps_length (r : Requirements) : (generateSteps r).length ≤ 4 := by
  unfold generateSteps
  split_ifs <;> simp

/-- C10: every plan produced by `createPlan` has risk "low": no
generated step uses the security auditor and the step count never
exceeds four, so neither risk-raising condition can fire. -/
theorem createPlan_risk_low (id task : String) : (createPlan id task).risk = "low" := by
  have h1 := fun s => generateSteps_agent_ne_auditor (analyzeRequirements task) s
  have h2 := generateSteps_length (analyzeRequirements task)
  have hc1 : ¬ ((generateSteps (analyzeRequirements task)).any
      (fun s => s.agent = "security-auditor") = true) := by
    simp only [List.any_eq_true, decide_eq_true_eq, not_exists]
    intro s
    simp only [not_and]
    exact h1 s
  have hc2 : ¬ (5 < (generateSteps (analyzeRequirements task)).length) := by omega
  simp only [createPlan, assessRisk]
  simp [hc1, hc2]

/-- C2 (amended): when the first step of a plan is critical and its
execution fails, the overall status is "failed", exactly two error
entries are recorded (the step's own error and the wrapping
"Critical step failed" message), and no further steps run. -/
theorem executePlan_critical_failure (exec : Step → StepResult) (plan : ExecutionPlan)
    (step : Step) (rest : List Step) (e : String)
    (hsteps : plan.steps = step :: rest) (hcrit : step.critical = true)
    (hstat : (exec step).status = "error") (herr : (exec step).error = some e) :
    (executePlan exec plan).status = "failed" ∧
    (executePlan exec plan).errors = [some e, some ("Critical step failed: " ++ e)] ∧
    (executePlan exec plan).steps = [exec step] := by
  unfold executePlan
  rw [hsteps]
  unfold runSteps
  simp [hstat, hcrit, herr, optStr]

/-- Witness for C2 (amended) on a concrete one-step critical plan with
a forced failure. -/
theorem executePlan_critical_failure_witness :
    (executePlan failExec cplan).status = "failed" ∧
    (executePlan failExec cplan).errors =
      [some "boom", some ("Critical step failed: " ++ "boom")] ∧
    (executePlan failExec cplan).steps = [failExec failStep] :=
  executePlan_critical_failure failExec cplan failStep [] "boom" rfl rfl rfl rfl

/-- C2 counterexample: on the one-critical-step plan with a forced
failure the status is "failed" but `errors.length` is 2, not 1. -/
theorem executePlan_errors_not_one_counterexample :
    (executePlan failExec cplan).status = "failed" ∧
    ¬ ((executePlan failExec cplan).errors.length = 1) := by
  decide

/-- Membership in a positional enumeration, phrased through `get?`. -/
theorem enumFrom_mem_iff {α : Type} (n : Nat) (l : List α) (i : Nat) (a : α) :
    (i, a) ∈ enumFrom n l ↔ ∃ k, l.get? k = some a ∧ i = n + k := by
  induction l generalizing n with
  | nil => simp [enumFrom]
  | cons b t ih =>
    simp only [enumFrom, List.mem_cons, ih, Prod.mk.injEq]
    constructor
    · rintro (⟨rfl, rfl⟩ | ⟨k, hk, rfl⟩)
      · exact ⟨0, rfl, by omega⟩
      · exact ⟨k + 1, hk, by omega⟩
    · rintro ⟨k, hk, rfl⟩
      cases k with
      | zero =>
        left
        simp only [List.get?] at hk
        exact ⟨by omega, ((Option.some.injEq _ _).mp hk).symm⟩
      | succ k =>
        right
        simp only [List.get?] at hk
        exact ⟨k, hk, by omega⟩

/-- An index occurs at most once in an enumeration. -/
theorem enumFrom_index_inj {α : Type} (n : Nat) (l : List α) (i : Nat) (a b : α)
    (ha : (i, a) ∈ enumFrom n l) (hb : (i, b) ∈ enumFrom n l) : a = b := by
  rw [enumFrom_mem_iff] at ha hb
  obtain ⟨k, hk, hik⟩ := ha
  obtain ⟨k2, hk2, hik2⟩ := hb
  have hkk : k = k2 := by omega
  subst hkk
  rw [hk] at hk2
  exact (Option.some.injEq _ _).mp hk2

/-- The filter of `detectConflicts` is non-empty exactly when some
other (different index) change hits the same file with both of type
"modify". -/
theorem detectConflicts_ne_nil (c : Nat × Change) (all : List (Nat × Change)) :
    detectConflicts c all ≠ [] ↔
    ∃ o ∈ all, o.1 ≠ c.1 ∧ c.2.file = o.2.file ∧ c.2.type = "modify" ∧
      o.2.type = "modify" := by
  unfold detectConflicts
  rw [ne_eq, List.map_eq_nil_iff, List.filter_eq_nil_iff]
  push_neg
  constructor
  · rintro ⟨o, ho, hpred⟩
    refine ⟨o, ho, ?_⟩
    simpa [Bool.and_eq_true, bne_iff_ne, beq_iff_eq, and_assoc] using hpred
  · rintro ⟨o, ho, hpred⟩
    refine ⟨o, ho, ?_⟩
    simpa [Bool.and_eq_true, bne_iff_ne, beq_iff_eq, and_assoc] using hpred

/-- Characterisation of the conflict side of the partition loop. -/
theorem coordLoop_conflicts_mem (idx l : List (Nat × Change)) (c : Change)
    (cf : List Change) :
    (c, cf) ∈ (coordLoop idx l).2 ↔
    ∃ p ∈ l, p.2 = c ∧ detectConflicts p idx = cf ∧ cf ≠ [] := by
  induction l with
  | nil => simp [coordLoop]
  | cons q t ih =>
    unfold coordLoop
    by_cases hq : (detectConflicts q idx).isEmpty
    · rw [if_pos hq]
      have hqe : detectConflicts q idx = [] := List.isEmpty_iff.mp hq
      simp only [ih, List.mem_cons]
      constructor
      · rintro ⟨p, hp, hrest⟩
        exact ⟨p, Or.inr hp, hrest⟩
      · rintro ⟨p, hp | hp, h2, h3, h4⟩
        · subst hp
          rw [hqe] at h3
          exact absurd h3.symm h4
        · exact ⟨p, hp, h2, h3, h4⟩
    · rw [if_neg hq]
      have hqe : detectConflicts q idx ≠ [] := by
        intro hnil
        exact hq (List.isEmpty_iff.mpr hnil)
      simp only [List.mem_cons, ih, Prod.mk.injEq]
      constructor
      · rintro (⟨h1, h2⟩ | ⟨p, hp, hrest⟩)
        · exact ⟨q, Or.inl rfl, h1.symm, h2.symm, h2 ▸ hqe⟩
        · exact ⟨p, Or.inr hp, hrest⟩
      · rintro ⟨p, hp | hp, h2, h3, h4⟩
        · subst hp
          exact Or.inl ⟨h2.symm, h3.symm⟩
        · exact Or.inr ⟨p, hp, h2, h3, h4⟩

/-- Characterisation of the accepted side of the partition loop. -/
theorem coordLoop_changes_mem (idx l : List (Nat × Change)) (c : Change) :
    c ∈ (coordLoop idx l).1 ↔
    ∃ p ∈ l, p.2 = c ∧ detectConflicts p idx = [] := by
  induction l with
  | nil => simp [coordLoop]
  | cons q t ih =>
    unfold coordLoop
    by_cases hq : (detectConflicts q idx).isEmpty
    · rw [if_pos hq]
      have hqe : detectConflicts q idx = [] := List.isEmpty_iff.mp hq
      simp only [List.mem_cons, ih]
      constructor
      · rintro (rfl | ⟨p, hp, hrest⟩)
        · exact ⟨q, Or.inl rfl, rfl, hqe⟩
        · exact ⟨p, Or.inr hp, hrest⟩
      · rintro ⟨p, hp | hp, h2, h3⟩
        · subst hp
          exact Or.inl h2.symm
        · exact Or.inr ⟨p, hp, h2, h3⟩
    · rw [if_neg hq]
      have hqe : detectConflicts q idx ≠ [] := by
        intro hnil
        exact hq (List.isEmpty_iff.mpr hnil)
      simp only [ih, List.mem_cons]
      constructor
      · rintro ⟨p, hp, hrest⟩
        exact ⟨p, Or.inr hp, hrest⟩
      · rintro ⟨p, hp | hp, h2, h3⟩
        · subst hp
          exact absurd h3 hqe
        · exact ⟨p, hp, h2, h3⟩

/-- C6: a change lands under `conflicts` iff some other distinct change
in the batch targets the identical file with both of type "modify";
conflicted changes are excluded from the accepted list; in particular
two "modify" changes to "a.js" both conflict and nothing is accepted. -/
theorem coordinateChanges_spec :
    (∀ (changes : List Change) (c : Change),
      (∃ cf, (c, cf) ∈ (coordinateChanges changes).conflicts) ↔
      (∃ i j d, i ≠ j ∧ changes.get? i = some c ∧ changes.get? j = some d ∧
        d.file = c.file ∧ c.type = "modify" ∧ d.type = "modify")) ∧
    (∀ (changes : List Change) (c : Change),
      c ∈ (coordinateChanges changes).changes →
      ¬ ∃ cf, (c, cf) ∈ (coordinateChanges changes).conflicts) ∧
    ((coordinateChanges twoBatch).changes = [] ∧
     (coordinateChanges twoBatch).conflicts.map Prod.fst = twoBatch) := by
  have hmem : ∀ (changes : List Change) (i : Nat) (c : Change),
      ((i, c) ∈ enumFrom 0 changes ↔ changes.get? i = some c) := by
    intro changes i c
    rw [enumFrom_mem_iff]
    constructor
    · rintro ⟨k, hk, rfl⟩
      simpa using hk
    · intro h
      exact ⟨i, h, by omega⟩
  refine ⟨?_, ?_, by decide, by decide⟩
  · intro changes c
    simp only [coordinateChanges]
    constructor
    · rintro ⟨cf, hcf⟩
      rw [coordLoop_conflicts_mem] at hcf
      obtain ⟨⟨pi, pc⟩, hp, hpc, hdet, hne⟩ := hcf
      dsimp only at hpc
      subst hpc
      rw [← hdet] at hne
      rw [detectConflicts_ne_nil] at hne
      obtain ⟨o, ho, hoi, hof, hct, hot⟩ := hne
      have ho2 : (o.1, o.2) ∈ enumFrom 0 changes := by simpa using ho
      refine ⟨pi, o.1, o.2, ?_, (hmem changes pi pc).mp hp,
        (hmem changes o.1 o.2).mp ho2, hof.symm, hct, hot⟩
      intro h
      exact hoi h.symm
    · rintro ⟨i, j, d, hij, hci, hdj, hdf, hcm, hdm⟩
      refine ⟨detectConflicts (i, c) (enumFrom 0 changes), ?_⟩
      rw [coordLoop_conflicts_mem]
      refine ⟨(i, c), (hmem changes i c).mpr hci, rfl, rfl, ?_⟩
      rw [detectConflicts_ne_nil]
      exact ⟨(j, d), (hmem changes j d).mpr hdj, fun h => hij h.symm, hdf.symm, hcm, hdm⟩
  · intro changes c hacc hconf
    obtain ⟨cf, hcf⟩ := hconf
    simp only [coordinateChanges] at hacc hcf
    rw [coordLoop_changes_mem] at hacc
    rw [coordLoop_conflicts_mem] at hcf
    obtain ⟨⟨pi, pc⟩, hp, hpc, hdet⟩ := hacc
    obtain ⟨⟨qi, qc⟩, hq, hqc, hdet2, hne2⟩ := hcf
    dsimp only at hpc hqc
    rw [hpc] at hp hdet
    rw [hqc] at hq hdet2
    rw [← hdet2] at hne2
    rw [detectConflicts_ne_nil] at hne2
    obtain ⟨o, ho, hoi, hof, hct, hot⟩ := hne2
    dsimp only at hoi hof hct
    have hdetp : detectConflicts (pi, c) (enumFrom 0 changes) ≠ [] := by
      rw [detectConflicts_ne_nil]
      by_cases hcase : o.1 = pi
      · refine ⟨(qi, c), hq, ?_, rfl, hct, hct⟩
        dsimp only
        intro h
        exact hoi (hcase.trans h.symm)
      · exact ⟨o, ho, hcase, hof, hct, hot⟩
    exact hdetp hdet


/-- Witness for C6: instantiating the characterisation on the concrete
two-modify batch produces the conflict entry. -/
theorem coordinateChanges_spec_witness :
    ∃ cf, ((⟨"a.js", "modify", none⟩ : Change), cf) ∈
      (coordinateChanges twoBatch).conflicts :=
  (coordinateChanges_spec.1 twoBatch ⟨"a.js", "modify", none⟩).mpr
    ⟨0, 1, ⟨"a.js", "modify", none⟩, by decide, by decide, by decide, rfl, rfl, rfl⟩

/-- C5: the code checks `summary.fileTypes.test`, a key the
extension→type map can never produce, instead of counting files of
purpose "testing".  On an index holding one file whose purpose IS
"testing", the "no tests" recommendation is still emitted, refuting
the claimed equivalence. -/
theorem noTests_recommendation_divergence :
    ((buildIndex 0 [("a.js", "test")]).filter
        (fun a => a.context.purpose == "testing")).length = 1 ∧
    testingRec ∈ (generateReportRecord (buildIndex 0 [("a.js", "test")])).recommendations := by
  constructor
  · decide
  · show testingRec ∈ generateRecommendations
      (summaryOf (buildIndex 0 [("a.js", "test")]))
      (mostDependentOf (buildIndex 0 [("a.js", "test")]))
    unfold generateRecommendations
    apply List.mem_append_right
    have hl : ((summaryOf (buildIndex 0 [("a.js", "test")])).fileTypes).lookup "test" =
        none := by
      decide
    have hcond : (match (summaryOf (buildIndex 0 [("a.js", "test")])).fileTypes.lookup
        "test" with
      | none => True
      | some v => v = 0) := by
      rw [hl]
      trivial
    rw [if_pos hcond]
    exact List.mem_singleton_self _

/-- Every content has at least one line. -/
theorem linesOf_pos (s : String) : 0 < linesOf s := by
  unfold linesOf
  cases h : splitChar (Char.ofNat 10) s.data with
  | nil => exact absurd h (splitChar_ne_nil _ _)
  | cons a l => simp

/-- The `log` argument of the complexity is positive. -/
theorem complexityArg_pos (s : String) : 0 < complexityArg s := by
  unfold complexityArg
  omega

/-- C7 (amended): the complexity score is monotone in its argument
`lineCount + structuralKeywordCount + 1`; in particular appending an
`if (...)` block on a new line never lowers the score. -/
theorem calculateComplexity_monotone (a b : String)
    (h : complexityArg a ≤ complexityArg b) :
    calculateComplexity a ≤ calculateComplexity b := by
  unfold calculateComplexity
  have hpa : (0:ℝ) < (complexityArg a : ℝ) := by
    exact_mod_cast complexityArg_pos a
  have hlog : Real.log (complexityArg a) ≤ Real.log (complexityArg b) := by
    apply Real.log_le_log hpa
    exact_mod_cast h
  have hround : round (Real.log (complexityArg a) * 100) ≤
      round (Real.log (complexityArg b) * 100) := by
    rw [round_eq, round_eq]
    exact Int.floor_le_floor (by linarith)
  rw [div_le_div_iff_of_pos_right (by norm_num : (0:ℝ) < 100)]
  exact_mod_cast hround

/-- Witness for C7 (amended): appending `if (a) {}` on a new line to
the one-line content "x". -/
theorem calculateComplexity_monotone_witness :
    calculateComplexity "x" ≤ calculateComplexity ("x" ++ "\nif (a) \x7b\x7d") :=
  calculateComplexity_monotone _ _ (by decide)

/-- `log 3 < 1.2`, via `3 < e^1.2 = e · e^0.2` and `1.2 ≤ e^0.2`. -/
theorem log_three_lt : Real.log 3 < 6/5 := by
  rw [Real.log_lt_iff_lt_exp (by norm_num)]
  have he : Real.exp (6/5 : ℝ) = Real.exp 1 * Real.exp (1/5 : ℝ) := by
    rw [← Real.exp_add]
    norm_num
  rw [he]
  have h1 : (2.7182818283 : ℝ) < Real.exp 1 := Real.exp_one_gt_d9
  have h2 : (1:ℝ) + 1/5 ≤ Real.exp (1/5 : ℝ) := by
    have := Real.add_one_le_exp (1/5 : ℝ)
    linarith
  nlinarith [Real.exp_pos (1/5 : ℝ)]

/-- `log 4 > 4/3`, via `e^{4/3} = e · (e^{1/6})² < e · (6/5)² < 4`. -/
theorem log_four_gt : (4:ℝ)/3 < Real.log 4 := by
  rw [Real.lt_log_iff_exp_lt (by norm_num)]
  have he : Real.exp ((4:ℝ)/3) = Real.exp 1 * (Real.exp (1/6 : ℝ) * Real.exp (1/6 : ℝ)) := by
    rw [← Real.exp_add, ← Real.exp_add]
    norm_num
  rw [he]
  have h1 : Real.exp 1 < 2.7182818286 := Real.exp_one_lt_d9
  have h6 : Real.exp (1/6 : ℝ) ≤ 6/5 := by
    have hneg := Real.add_one_le_exp (-(1/6) : ℝ)
    rw [Real.exp_neg] at hneg
    have hp : (0:ℝ) < Real.exp (1/6 : ℝ) := Real.exp_pos _
    have hone : Real.exp (1/6 : ℝ) * (Real.exp (1/6 : ℝ))⁻¹ = 1 :=
      mul_inv_cancel₀ (ne_of_gt hp)
    nlinarith
  nlinarith [Real.exp_pos (1:ℝ), Real.exp_pos (1/6 : ℝ)]

/-- C7 counterexample: appending the block `if (a==b) {}` to
`"const x = function"` merges the `const.*=` match with `function`,
lowering the keyword count, and the complexity score strictly drops
(round(100·log 3)/100 = 1.10 < 1.39 = round(100·log 4)/100). -/
theorem calculateComplexity_append_if_counterexample :
    calculateComplexity exB < calculateComplexity exA := by
  have hA : complexityArg exA = 4 := by decide
  have hB : complexityArg exB = 3 := by decide
  unfold calculateComplexity
  rw [hA, hB]
  have hc3 : ((3:ℕ):ℝ) = (3:ℝ) := by norm_num
  have hc4 : ((4:ℕ):ℝ) = (4:ℝ) := by norm_num
  rw [hc3, hc4]
  have hr3 : round (Real.log 3 * 100) ≤ 120 := by
    rw [round_eq]
    have h3 := log_three_lt
    have hlt : ⌊Real.log 3 * 100 + 1/2⌋ < (121:ℤ) := by
      apply Int.floor_lt.mpr
      push_cast
      nlinarith
    omega
  have hr4 : (133:ℤ) ≤ round (Real.log 4 * 100) := by
    rw [round_eq]
    apply Int.le_floor.mpr
    have h4 := log_four_gt
    push_cast
    nlinarith
  rw [div_lt_div_iff_of_pos_right (by norm_num : (0:ℝ) < 100)]
  have : round (Real.log 3 * 100) < round (Real.log 4 * 100) := by omega
  exact_mod_cast this

/-- `analyzeFile` at clock `t` is the clock-0 record restamped. -/
theorem stamp_analyzeFile (t : Nat) (p c : String) :
    stamp t (analyzeFile 0 p c) = analyzeFile t p c := rfl

/-- A build at clock `t` is the clock-0 build restamped. -/
theorem buildIndex_stamp (t : Nat) (files : List (String × String)) :
    buildIndex t files = (buildIndex 0 files).map (stamp t) := by
  unfold buildIndex
  rw [List.map_map]
  rfl

/-- `orderedInsert` commutes with restamping when the order relation
ignores the timestamp. -/
theorem orderedInsert_map_stamp (t : Nat) (r : Analysis → Analysis → Prop)
    [DecidableRel r] (hr : ∀ x y, r (stamp t x) (stamp t y) ↔ r x y)
    (a : Analysis) (l : List Analysis) :
    List.orderedInsert r (stamp t a) (l.map (stamp t)) =
    (List.orderedInsert r a l).map (stamp t) := by
  induction l with
  | nil => rfl
  | cons b tl ih =>
    simp only [List.map_cons, List.orderedInsert]
    by_cases h : r a b
    · rw [if_pos ((hr a b).mpr h), if_pos h]
      rfl
    · rw [if_neg (fun hc => h ((hr a b).mp hc)), if_neg h, List.map_cons, ih]

/-- Insertion sort commutes with restamping when the order relation
ignores the timestamp. -/
theorem insertionSort_map_stamp (t : Nat) (r : Analysis → Analysis → Prop)
    [DecidableRel r] (hr : ∀ x y, r (stamp t x) (stamp t y) ↔ r x y)
    (l : List Analysis) :
    List.insertionSort r (l.map (stamp t)) =
    (List.insertionSort r l).map (stamp t) := by
  induction l with
  | nil => rfl
  | cons a tl ih =>
    simp only [List.map_cons, List.insertionSort]
    rw [ih, orderedInsert_map_stamp t r hr]

/-- The per-type tally ignores timestamps. -/
theorem fileTypesOf_stamp (t : Nat) (l : List Analysis) :
    fileTypesOf (l.map (stamp t)) = fileTypesOf l := by
  unfold fileTypesOf
  rw [List.foldl_map]
  rfl

/-- The size sum ignores timestamps. -/
theorem totalLinesOf_stamp (t : Nat) (l : List Analysis) :
    totalLinesOf (l.map (stamp t)) = totalLinesOf l := by
  unfold totalLinesOf
  rw [List.map_map]
  rfl

/-- The complexity sum ignores timestamps. -/
theorem totalComplexityOf_stamp (t : Nat) (l : List Analysis) :
    totalComplexityOf (l.map (stamp t)) = totalComplexityOf l := by
  unfold totalComplexityOf
  rw [List.map_map]
  rfl

/-- The dependency sum ignores timestamps. -/
theorem totalDependenciesOf_stamp (t : Nat) (l : List Analysis) :
    totalDependenciesOf (l.map (stamp t)) = totalDependenciesOf l := by
  unfold totalDependenciesOf
  rw [List.map_map]
  rfl

/-- The summary ignores timestamps. -/
theorem summaryOf_stamp (t : Nat) (l : List Analysis) :
    summaryOf (l.map (stamp t)) = summaryOf l := by
  unfold summaryOf averageComplexityOf
  rw [fileTypesOf_stamp, totalLinesOf_stamp, totalComplexityOf_stamp,
    totalDependenciesOf_stamp, List.length_map]

/-- The per-file analysis block ignores timestamps. -/
theorem fileAnalysisOf_stamp (t : Nat) (l : List Analysis) :
    fileAnalysisOf (l.map (stamp t)) = fileAnalysisOf l := by
  unfold fileAnalysisOf
  rw [List.map_map]
  rfl

/-- The most-complex top-5 ignores timestamps. -/
theorem mostComplexOf_stamp (t : Nat) (l : List Analysis) :
    mostComplexOf (l.map (stamp t)) = mostComplexOf l := by
  unfold mostComplexOf
  rw [insertionSort_map_stamp t (fun x y : Analysis => y.complexity ≤ x.complexity)
    (fun x y => Iff.rfl), ← List.map_take, List.map_map]
  rfl

/-- The most-dependent top-5 ignores timestamps. -/
theorem mostDependentOf_stamp (t : Nat) (l : List Analysis) :
    mostDependentOf (l.map (stamp t)) = mostDependentOf l := by
  unfold mostDependentOf
  rw [insertionSort_map_stamp t
    (fun x y : Analysis => y.dependencies.length ≤ x.dependencies.length)
    (fun x y => Iff.rfl), ← List.map_take, List.map_map]
  rfl

/-- The whole report record ignores timestamps. -/
theorem generateReportRecord_stamp (t : Nat) (l : List Analysis) :
    generateReportRecord (l.map (stamp t)) = generateReportRecord l := by
  unfold generateReportRecord
  rw [summaryOf_stamp, fileAnalysisOf_stamp, mostComplexOf_stamp, mostDependentOf_stamp]

/-- C8: the formatted report over a built index does not depend on the
analysis timestamps (the only clock input in the pipeline), so two
runs over the same enumerated files produce identical text. -/
theorem generateReport_deterministic (fmt : ℝ → String)
    (files : List (String × String)) (t1 t2 : Nat) :
    generateReport fmt (buildIndex t1 files) =
    generateReport fmt (buildIndex t2 files) := by
  have key : ∀ t, generateReportRecord (buildIndex t files) =
      generateReportRecord (buildIndex 0 files) := by
    intro t
    rw [buildIndex_stamp t, generateReportRecord_stamp]
  unfold generateReport
  rw [key t1, key t2]

end SheikhCli
